import Mathlib

/-!
Shallow embedding of the CRISPR-screen data-query layer.

The repository has two near-duplicate data modules:
  * crispr_data_tools.py (DuckDB-over-S3 query functions), embedded in
    namespace Tools1 below;
  * crispr-data_tools2.py (pandas over local files), embedded in
    namespace Tools2 below.

Pandas DataFrames are modelled as tables of association-list rows over a
cell type covering nulls (NaN), strings and integers.  File systems /
object stores are modelled as partial maps from path strings to tables;
the DuckDB read of a missing object, like the pandas read of a missing
file, is an error, so fallible operations return Except.  The third-party
rapidfuzz scorer (fuzz.token_sort_ratio) is an external library and is
modelled as an abstract score function parameter on the 0-100 scale;
process.extractOne is embedded faithfully (first-encountered choice wins
ties, None on an empty choice list).
-/

namespace CrisprScreens

/-- Cell values of a table: null (pandas NaN), a string, or an integer. -/
inductive Cell where
  | null
  | str (s : String)
  | int (n : Int)
  deriving DecidableEq, Repr

/-- A row is an ordered association list from column names to cells. -/
abbrev Row := List (String × Cell)

/-- Look a cell up by column name; none when the row has no such column. -/
def rowGet (r : Row) (c : String) : Option Cell :=
  (r.find? (fun p => p.1 == c)).map (fun p => p.2)

/-- Look a cell up by column name, reading a missing column as null. -/
def rowGetD (r : Row) (c : String) : Cell :=
  (rowGet r c).getD Cell.null

/-- A table (pandas DataFrame): an ordered column list and a row list. -/
structure Table where
  cols : List String
  rows : List Row
  deriving DecidableEq, Repr

/-- The empty DataFrame, pd.DataFrame(). -/
def Table.empty : Table := ⟨[], []⟩

/-- Emptiness test, df.empty (a DataFrame with no rows is empty). -/
def Table.isEmpty (t : Table) : Bool := t.rows.isEmpty

/-- A file system / object store: path strings to file contents. -/
abbrev FS := String → Option Table

/-- Worker of uniqueFirst: keep each value whose first occurrence this
is, skipping values already seen. -/
def uniqueFirstAux {α} [DecidableEq α] : List α → List α → List α
  | [], _ => []
  | a :: l, seen =>
    if a ∈ seen then uniqueFirstAux l seen
    else a :: uniqueFirstAux l (a :: seen)

/-- Deduplication keeping the first occurrence of each value, the
semantics of pandas Series.unique(). -/
def uniqueFirst {α} [DecidableEq α] (l : List α) : List α :=
  uniqueFirstAux l []

/-- Lowercasing of a string as the character-wise map, the semantics of
Python str.lower() used by the pandas .str.lower accessor. -/
def strLower (s : String) : String :=
  ⟨s.data.map Char.toLower⟩

/-- Rendering of a cell by a Python f-string interpolation. -/
def Cell.render : Cell → String
  | .null => "nan"
  | .str s => s
  | .int n => toString n

/-- Python repr of a cell as it appears inside the str() of a list. -/
def Cell.pyrepr : Cell → String
  | .null => "nan"
  | .str s => "'" ++ s ++ "'"
  | .int n => toString n

/-- Python str() of a list of cells. -/
def pyListRepr (l : List Cell) : String :=
  "[" ++ String.intercalate ", " (l.map Cell.pyrepr) ++ "]"

/-- Column of cell values of a table, df[col] (missing columns read as
null, matching a selection that pandas would refuse; the functions below
only use this on columns the claims assume present). -/
def Table.colVals (t : Table) (c : String) : List Cell :=
  t.rows.map (fun r => rowGetD r c)

/-- Distinct non-null values of a column in first-occurrence order,
df[col].dropna().unique().tolist(). -/
def dropnaUnique (t : Table) (c : String) : List Cell :=
  uniqueFirst ((t.colVals c).filter (fun v => v ≠ Cell.null))

/-- A row extends another when it preserves every defined cell. -/
def extendsRow (bigger smaller : Row) : Prop :=
  ∀ c v, rowGet smaller c = some v → rowGet bigger c = some v

namespace Tools1

/-! Embedding of crispr_data_tools.py.  The module-level configuration
constants and the query functions; the DuckDB S3 connection is the
external collaborator and is represented by the FS parameter. -/

def S3_BUCKET : String := "bioinf-trailbiomed"

def S3_PREFIX : String := "data/dev-crispr/TEST-SCREEN/SCREENS/"

/-- Gene-symbol argument: a bare string or a list of strings
(isinstance(gene_symbols, str) promotion at the interface). -/
inductive GenesArg where
  | one (g : String)
  | many (gs : List String)
  deriving DecidableEq, Repr

/-- Normalisation performed by the isinstance(..., str) check. -/
def GenesArg.toList : GenesArg → List String
  | .one g => [g]
  | .many gs => gs

/-- Screen-identifier argument of get_results_by_screens: a bare string,
a bare integer, or a list of identifier values. -/
inductive ScreensArg where
  | str (s : String)
  | int (n : Int)
  | list (l : List Cell)
  deriving DecidableEq, Repr

/-- Normalisation performed by the isinstance(..., (str, int)) check. -/
def ScreensArg.toList : ScreensArg → List Cell
  | .str s => [Cell.str s]
  | .int n => [Cell.int n]
  | .list l => l

/-- Path of a screen data file in the object store,
s3://{bucket}/{prefix}TEST-SCREEN_{screen_id}-0.0.0.screen.tab.txt. -/
def screen_tab_path (bucket pfx : String) (sid : Cell) : String :=
  "s3://" ++ bucket ++ "/" ++ pfx ++ "TEST-SCREEN_" ++ sid.render
    ++ "-0.0.0.screen.tab.txt"

/-- WHERE clause OFFICIAL_SYMBOL IN (gene list): SQL equality against the
quoted string literals, so only string cells can match, case-sensitively;
a NULL cell never satisfies IN. -/
def geneWhere (genes : List String) (r : Row) : Bool :=
  match rowGet r "OFFICIAL_SYMBOL" with
  | some (.str g) => genes.contains g
  | _ => false

/-- WHERE clause HIT = hit_value (NULL never compares equal). -/
def hitWhere (hv : String) (r : Row) : Bool :=
  match rowGet r "HIT" with
  | some (.str h) => h == hv
  | _ => false

/-- WHERE clause CAST("SCORE.2 (pos_fdr)" AS DOUBLE) <= score2_max
(numeric cells only; NULL never satisfies the comparison). -/
def score2Where (m : Int) (r : Row) : Bool :=
  match rowGet r "SCORE.2 (pos_fdr)" with
  | some (.int n) => decide (n ≤ m)
  | _ => false

/-- Conjunction of the provided WHERE predicates; absent predicates
impose no constraint. -/
def whereClauses (genes : Option (List String)) (hv : Option String)
    (s2 : Option Int) (r : Row) : Bool :=
  (match genes with | some gs => geneWhere gs r | none => true)
    && (match hv with | some h => hitWhere h r | none => true)
    && (match s2 with | some m => score2Where m r | none => true)

/-- Filtered Screen Reader load_screen_tab_filtered: select the rows of
one screen file passing the optional predicates and attach the screen
identifier as a SCREEN_ID column.  The DuckDB read of a missing S3
object raises, embedded as Except.error; an explicitly empty gene list
makes the SQL read IN (), a syntax error, also an error here. -/
def load_screen_tab_filtered (fs : FS) (sid : Cell) (bucket pfx : String)
    (gene_symbols : Option GenesArg) (hit_value : Option String)
    (score2_max : Option Int) : Except Unit Table :=
  let genes := gene_symbols.map GenesArg.toList
  if genes = some [] then .error () else
  match fs (screen_tab_path bucket pfx sid) with
  | none => .error ()
  | some t =>
    let kept := t.rows.filter (whereClauses genes hit_value score2_max)
    .ok ⟨t.cols ++ ["SCREEN_ID"], kept.map (fun r => r ++ [("SCREEN_ID", sid)])⟩

/-- Distinct screen identifiers of the index in first-seen order,
index_df['SCREEN_ID'].unique(). -/
def index_screen_ids (idx : Table) : List Cell :=
  uniqueFirst (idx.colVals "SCREEN_ID")

/-- Metadata enrichment loop of get_results_by_genes: for each index
column not already present in the screen-level table, append it with the
value of the given index row. -/
def enrich_with_meta (df : Table) (idxCols : List String) (m : Row) : Table :=
  idxCols.foldl
    (fun acc c =>
      if acc.cols.contains c then acc
      else ⟨acc.cols ++ [c], acc.rows.map (fun r => r ++ [(c, rowGetD m c)])⟩)
    df

/-- Concatenation pd.concat(results, ignore_index=True): rows in order,
columns the first-seen union. -/
def concatTables (ts : List Table) : Table :=
  ⟨uniqueFirst (ts.flatMap Table.cols), ts.flatMap Table.rows⟩

/-- Fan-out of get_results_by_genes over the screen identifiers: read
each screen filtered by the gene set, skip empty results, enrich
non-empty results with the index metadata of the first index row of that
screen.  A failing read propagates. -/
def genes_fanout (fs : FS) (idx : Table) (gs : List String)
    (bucket pfx : String) : List Cell → Except Unit (List Table)
  | [] => .ok []
  | sid :: rest =>
    match load_screen_tab_filtered fs sid bucket pfx
        (some (.many gs)) none none with
    | .error e => .error e
    | .ok df =>
      match genes_fanout fs idx gs bucket pfx rest with
      | .error e => .error e
      | .ok ts =>
        if df.isEmpty then .ok ts
        else
          match idx.rows.find? (fun r => rowGetD r "SCREEN_ID" == sid) with
          | some m => .ok (enrich_with_meta df idx.cols m :: ts)
          | none => .ok (df :: ts)

/-- By-gene-set aggregator get_results_by_genes. -/
def get_results_by_genes (fs : FS) (idx : Table) (genes : GenesArg)
    (bucket pfx : String) : Except Unit Table :=
  match genes_fanout fs idx genes.toList bucket pfx (index_screen_ids idx) with
  | .error e => .error e
  | .ok ts => if ts.isEmpty then .ok Table.empty else .ok (concatTables ts)

/-- Fan-out of get_results_by_screens: read each listed screen with no
predicates, skip empty results.  A failing read propagates. -/
def screens_fanout (fs : FS) (bucket pfx : String) :
    List Cell → Except Unit (List Table)
  | [] => .ok []
  | sid :: rest =>
    match load_screen_tab_filtered fs sid bucket pfx none none none with
    | .error e => .error e
    | .ok df =>
      match screens_fanout fs bucket pfx rest with
      | .error e => .error e
      | .ok ts => if df.isEmpty then .ok ts else .ok (df :: ts)

/-- By-screen-identifier aggregator get_results_by_screens. -/
def get_results_by_screens (fs : FS) (arg : ScreensArg)
    (bucket pfx : String) : Except Unit Table :=
  match screens_fanout fs bucket pfx arg.toList with
  | .error e => .error e
  | .ok ts => if ts.isEmpty then .ok Table.empty else .ok (concatTables ts)

/-- Case-insensitive exact match of the query against a cell,
index_df[virus_col].str.lower() == virus_query.lower(); non-string cells
(NaN under the .str accessor) never match. -/
def lowerMatches (q : String) (c : Option Cell) : Bool :=
  match c with
  | some (.str s) => strLower s == strLower q
  | _ => false

/-- Embedding of rapidfuzz process.extractOne: the choice with the
maximal score, the first-encountered choice winning ties; None on an
empty choice list. -/
def extractOne (score : Cell → Nat) : List Cell → Option (Cell × Nat)
  | [] => none
  | c :: rest =>
    match extractOne score rest with
    | none => some (c, score c)
    | some (b, s) => if s > score c then some (b, s) else some (c, score c)

/-- Condition Matcher portion of get_results_by_condition, resolving the
query to screen identifiers: ok (some ids) when an exact or
above-threshold approximate match exists, ok none when the best
approximate score is at or below the threshold (the early empty
DataFrame return), error when the vocabulary is empty (unpacking the
None returned by extractOne raises). -/
def get_condition_screen_ids (scorer : Cell → Nat) (idx : Table) (q : String)
    (virus_col : String) (threshold : Nat) : Except Unit (Option (List Cell)) :=
  let exact := idx.rows.filter (fun r => lowerMatches q (rowGet r virus_col))
  if exact.isEmpty then
    match extractOne scorer (dropnaUnique idx virus_col) with
    | none => .error ()
    | some (b, s) =>
      if s > threshold then
        .ok (some (uniqueFirst
          ((idx.rows.filter (fun r => rowGetD r virus_col == b)).map
            (fun r => rowGetD r "SCREEN_ID"))))
      else .ok none
  else
    .ok (some (uniqueFirst (exact.map (fun r => rowGetD r "SCREEN_ID"))))

/-- By-condition aggregator get_results_by_condition: resolve the query
to screen identifiers and delegate to get_results_by_screens; the
no-match case returns the empty DataFrame. -/
def get_results_by_condition (fs : FS) (scorer : Cell → Nat) (idx : Table)
    (q : String) (virus_col : String) (threshold : Nat)
    (bucket pfx : String) : Except Unit Table :=
  match get_condition_screen_ids scorer idx q virus_col threshold with
  | .error e => .error e
  | .ok none => .ok Table.empty
  | .ok (some ids) => get_results_by_screens fs (.list ids) bucket pfx

/-- Module-level controlled vocabulary: the distinct non-null values of a
marked column, or the empty list when the column is absent from the
index (the conditional expression guarding each of virus_options,
cell_line_options and species_options). -/
def vocab_options (idx : Table) (c : String) : List Cell :=
  if idx.cols.contains c then dropnaUnique idx c else []

/-- virus_options, the vocabulary of the CONDITION_NAME column. -/
def virus_options (idx : Table) : List Cell :=
  vocab_options idx "CONDITION_NAME"

/-- Per-screen contribution of the by-gene-set aggregator: the enriched
filtered table of one screen, the empty table when the read is empty. -/
def gene_screen_table (fs : FS) (idx : Table) (gs : List String)
    (bucket pfx : String) (sid : Cell) : Table :=
  match load_screen_tab_filtered fs sid bucket pfx
      (some (.many gs)) none none with
  | .error _ => Table.empty
  | .ok df =>
    if df.isEmpty then Table.empty
    else
      match idx.rows.find? (fun r => rowGetD r "SCREEN_ID" == sid) with
      | some m => enrich_with_meta df idx.cols m
      | none => df

/-- Per-screen contribution of the by-screens aggregator: the rows of the
unfiltered read of one screen. -/
def loaded_rows (fs : FS) (bucket pfx : String) (sid : Cell) : List Row :=
  match load_screen_tab_filtered fs sid bucket pfx none none none with
  | .error _ => []
  | .ok t => t.rows

/-- list_viruses returns the module-level virus_options list. -/
def list_viruses (idx : Table) : List Cell :=
  virus_options idx

end Tools1

namespace Tools2

/-! Embedding of crispr-data_tools2.py, the pandas-over-local-files
module.  BioGRIDIndex is represented by its loaded index table,
BioGRIDScreen by the loaded screen table; reads go through the FS map. -/

def SCREEN_DIR : String := "/home/ubuntu/data/biogrid"

/-- Python int() cast of a cell: an integer passes through, a string is
parsed, and NaN (or an unparsable string) raises. -/
def cellAsInt : Cell → Option Int
  | .int n => some n
  | .str s => s.toInt?
  | .null => none

/-- Screen Resolver get_screen_path: join the directory with the fixed
naming template BIOGRID-ORCS-SCREEN_{screen_id}-1.1.17.screen.tab.txt. -/
def get_screen_path (sid : Cell) (screen_dir : String) : String :=
  screen_dir ++ "/BIOGRID-ORCS-SCREEN_" ++ sid.render ++ "-1.1.17.screen.tab.txt"

/-- BioGRIDIndex.get_screen_metadata: the first index row whose
SCREEN_ID equals int(screen_id), as a dict; None when no row matches;
the int() cast of a non-numeric identifier raises. -/
def get_screen_metadata (idx : Table) (sid : Cell) : Except Unit (Option Row) :=
  match cellAsInt sid with
  | none => .error ()
  | some n =>
    .ok (idx.rows.find? (fun r => rowGetD r "SCREEN_ID" == Cell.int n))

/-- Significance fields of one index row: indicator, criteria, and the
non-null values among the five SCORE.i_TYPE columns. -/
structure SigCriteria where
  indicator : Cell
  criteria : Cell
  score_types : List Cell
  deriving DecidableEq, Repr

/-- The five optional score-type columns probed by
get_significance_criteria. -/
def scoreTypeCols : List String :=
  ["SCORE.1_TYPE", "SCORE.2_TYPE", "SCORE.3_TYPE", "SCORE.4_TYPE",
   "SCORE.5_TYPE"]

/-- BioGRIDIndex.get_significance_criteria: None when the screen is not
in the index; otherwise the indicator and criteria fields of its row
(whose absence from the row raises a KeyError, embedded as error) and
the present, non-null score types. -/
def get_significance_criteria (idx : Table) (sid : Cell) :
    Except Unit (Option SigCriteria) :=
  match cellAsInt sid with
  | none => .error ()
  | some n =>
    match idx.rows.find? (fun r => rowGetD r "SCREEN_ID" == Cell.int n) with
    | none => .ok none
    | some r =>
      match rowGet r "SIGNIFICANCE_INDICATOR", rowGet r "SIGNIFICANCE_CRITERIA" with
      | some ind, some crit =>
        .ok (some
          { indicator := ind
            criteria := crit
            score_types := scoreTypeCols.filterMap (fun c =>
              match rowGet r c with
              | some v => if v = Cell.null then none else some v
              | none => none) })
      | _, _ => .error ()

/-- BioGRIDScreen.get_hits: the rows of the screen table whose HIT
column equals the string YES. -/
def get_hits (t : Table) : List Row :=
  t.rows.filter (fun r => rowGet r "HIT" == some (Cell.str "YES"))

/-- BioGRIDScreen.get_gene_row: the rows whose OFFICIAL_SYMBOL equals
the given gene symbol exactly. -/
def get_gene_row (t : Table) (gene : String) : List Row :=
  t.rows.filter (fun r => rowGet r "OFFICIAL_SYMBOL" == some (Cell.str gene))

/-- Sort key of hits.sort_values(by ascending=False): the numeric value
of the SCORE.1 cell, none (sorted last) for NaN. -/
def score1Key (r : Row) : Option Int :=
  match rowGet r "SCORE.1" with
  | some (.int n) => some n
  | _ => none

/-- Comparator placing a before b in a descending sort on SCORE.1 with
nulls last (the pandas sort_values(ascending=False) order). -/
def score1Desc (a b : Row) : Bool :=
  match score1Key a, score1Key b with
  | some x, some y => decide (y ≤ x)
  | some _, none => true
  | none, some _ => false
  | none, none => true

/-- Hit rows sorted by SCORE.1 descending, then the first 10:
hits.sort_values(by ascending=False).head(10). -/
def topHits (hits : List Row) : List Row :=
  (hits.mergeSort score1Desc).take 10

/-- One entry of the query_gene_across_screens result list. -/
structure GQEntry where
  screen_id : Cell
  metadata : Option Row
  gene_result : List Row
  deriving DecidableEq, Repr

/-- Aggregator query_gene_across_screens: iterate the SCREEN_ID column
of the index, skip identifiers whose screen file does not exist on disk,
read each existing screen, and collect an entry for every screen whose
table has rows for the gene, with that screen's index metadata. -/
def query_gene_across_screens (fs : FS) (gene : String) (idx : Table)
    (screen_dir : String) : Except Unit (List GQEntry) :=
  go (idx.colVals "SCREEN_ID")
where
  go : List Cell → Except Unit (List GQEntry)
    | [] => .ok []
    | sid :: rest =>
      match fs (get_screen_path sid screen_dir) with
      | none => go rest
      | some t =>
        let gene_row := get_gene_row t gene
        if gene_row.isEmpty then go rest
        else
          match get_screen_metadata idx sid with
          | .error e => .error e
          | .ok meta =>
            match go rest with
            | .error e => .error e
            | .ok l => .ok ({ screen_id := sid, metadata := meta,
                              gene_result := gene_row } :: l)

/-- Summary produced by summarize_screen. -/
structure ScreenSummary where
  screen_id : Cell
  metadata : Option Row
  criteria : Option SigCriteria
  num_hits : Nat
  top_hits : List Row
  deriving DecidableEq, Repr

/-- Single-screen summarization summarize_screen: None when the screen
file does not exist; otherwise the hit count, the top 10 hits by SCORE.1
descending, and the screen's index metadata and significance criteria. -/
def summarize_screen (fs : FS) (sid : Cell) (idx : Table)
    (screen_dir : String) : Except Unit (Option ScreenSummary) :=
  match fs (get_screen_path sid screen_dir) with
  | none => .ok none
  | some t =>
    let hits := get_hits t
    match get_screen_metadata idx sid with
    | .error e => .error e
    | .ok meta =>
      match get_significance_criteria idx sid with
      | .error e => .error e
      | .ok crit =>
        .ok (some
          { screen_id := sid
            metadata := meta
            criteria := crit
            num_hits := hits.length
            top_hits := topHits hits })

/-- Human-readable explanation explain_significance: the fixed "No
criteria found." string when the screen has no criteria, else the
formatted indicator / criteria / score-column sentence. -/
def explain_significance (idx : Table) (sid : Cell) : Except Unit String :=
  match get_significance_criteria idx sid with
  | .error e => .error e
  | .ok none => .ok "No criteria found."
  | .ok (some c) =>
    .ok ("Hits are defined by: " ++ c.indicator.render ++ " with criteria: "
      ++ c.criteria.render ++ ". Score columns: " ++ pyListRepr c.score_types)

end Tools2

/-- Specification-side Vocabulary Extractor, following the words of the
spec for comparison against the implementation: the ordered-by-first-
occurrence list of distinct non-null values of a column, built by a left
fold that appends each non-null value not yet seen. -/
def spec_first_occurrence_distinct (vals : List Cell) : List Cell :=
  vals.foldl (fun acc v => if v = Cell.null ∨ v ∈ acc then acc else acc ++ [v]) []

/-- Sample index table (the worked example of the spec) used by claim
witnesses. -/
def sampleIdx : Table :=
  ⟨["SCREEN_ID", "CONDITION_NAME", "CELL_LINE"],
   [[("SCREEN_ID", Cell.int 101), ("CONDITION_NAME", Cell.str "Influenza A"),
     ("CELL_LINE", Cell.str "A549")],
    [("SCREEN_ID", Cell.int 102), ("CONDITION_NAME", Cell.str "SARS-CoV-2"),
     ("CELL_LINE", Cell.str "Calu-3")]]⟩

/-- Sample screen table for screen 101 (the worked example of the spec):
a TP53 hit and a BRCA1 non-hit. -/
def sampleScreen101 : Table :=
  ⟨["OFFICIAL_SYMBOL", "HIT", "SCORE.1"],
   [[("OFFICIAL_SYMBOL", Cell.str "TP53"), ("HIT", Cell.str "YES"),
     ("SCORE.1", Cell.int 3)],
    [("OFFICIAL_SYMBOL", Cell.str "BRCA1"), ("HIT", Cell.str "NO"),
     ("SCORE.1", Cell.int 1)]]⟩

/-- One-row screen table holding a single gene symbol, a witness fixture. -/
def screenOf (g : String) : Table :=
  ⟨["OFFICIAL_SYMBOL"], [[("OFFICIAL_SYMBOL", Cell.str g)]]⟩

/-- Sample object store for the Tools1 witnesses: screens 3, 1, 2 hold one
gene each, screen 101 holds the sample screen, screen 102 holds only
BRCA1; every other path is absent. -/
def sampleFS : FS := fun path =>
  if path = Tools1.screen_tab_path Tools1.S3_BUCKET Tools1.S3_PREFIX
      (Cell.int 3) then some (screenOf "G3")
  else if path = Tools1.screen_tab_path Tools1.S3_BUCKET Tools1.S3_PREFIX
      (Cell.int 1) then some (screenOf "G1")
  else if path = Tools1.screen_tab_path Tools1.S3_BUCKET Tools1.S3_PREFIX
      (Cell.int 2) then some (screenOf "G2")
  else if path = Tools1.screen_tab_path Tools1.S3_BUCKET Tools1.S3_PREFIX
      (Cell.int 101) then some sampleScreen101
  else if path = Tools1.screen_tab_path Tools1.S3_BUCKET Tools1.S3_PREFIX
      (Cell.int 102) then some (screenOf "BRCA1")
  else none

/-- Sample index for the Tools2 witnesses, holding screen 101 with its
significance fields. -/
def sampleIdx2 : Table :=
  ⟨["SCREEN_ID", "SIGNIFICANCE_INDICATOR", "SIGNIFICANCE_CRITERIA",
    "SCORE.1_TYPE"],
   [[("SCREEN_ID", Cell.int 101),
     ("SIGNIFICANCE_INDICATOR", Cell.str "SCORE.1"),
     ("SIGNIFICANCE_CRITERIA", Cell.str "score greater than 2"),
     ("SCORE.1_TYPE", Cell.str "log2 fold change")]]⟩

/-- Sample local file system for the Tools2 witnesses: only screen 101
is present. -/
def sampleFS2 : FS := fun path =>
  if path = Tools2.get_screen_path (Cell.int 101) Tools2.SCREEN_DIR
    then some sampleScreen101 else none

deriving instance DecidableEq for Except

/-! Helper lemmas shared by the claim theorems. -/

theorem mem_uniqueFirstAux {α} [DecidableEq α] (l : List α) :
    ∀ (seen : List α) (a : α),
      a ∈ uniqueFirstAux l seen ↔ a ∈ l ∧ a ∉ seen := by
  induction l with
  | nil => intro seen a; simp [uniqueFirstAux]
  | cons b l ih =>
    intro seen a
    by_cases hb : b ∈ seen
    · rw [uniqueFirstAux, if_pos hb, ih seen a]
      by_cases hab : a = b
      · subst hab; simp [hb]
      · simp [hab]
    · rw [uniqueFirstAux, if_neg hb]
      by_cases hab : a = b
      · subst hab; simp [hb]
      · simp [hab, ih (b :: seen) a]

theorem mem_uniqueFirst {α} [DecidableEq α] (l : List α) (a : α) :
    a ∈ uniqueFirst l ↔ a ∈ l := by
  rw [uniqueFirst, mem_uniqueFirstAux]
  simp

theorem uniqueFirstAux_sublist {α} [DecidableEq α] (l : List α) :
    ∀ seen : List α, List.Sublist (uniqueFirstAux l seen) l := by
  induction l with
  | nil => intro seen; simp [uniqueFirstAux]
  | cons b l ih =>
    intro seen
    by_cases hb : b ∈ seen
    · rw [uniqueFirstAux, if_pos hb]
      exact (ih seen).trans (List.sublist_cons_self b l)
    · rw [uniqueFirstAux, if_neg hb]
      exact List.Sublist.cons₂ b (ih (b :: seen))

theorem uniqueFirst_sublist {α} [DecidableEq α] (l : List α) :
    List.Sublist (uniqueFirst l) l :=
  uniqueFirstAux_sublist l []

theorem nodup_uniqueFirstAux {α} [DecidableEq α] (l : List α) :
    ∀ seen : List α, (uniqueFirstAux l seen).Nodup := by
  induction l with
  | nil => intro seen; simp [uniqueFirstAux]
  | cons b l ih =>
    intro seen
    by_cases hb : b ∈ seen
    · rw [uniqueFirstAux, if_pos hb]
      exact ih seen
    · rw [uniqueFirstAux, if_neg hb]
      refine List.Nodup.cons (fun hmem => ?_) (ih (b :: seen))
      rw [mem_uniqueFirstAux] at hmem
      simp at hmem

theorem nodup_uniqueFirst {α} [DecidableEq α] (l : List α) :
    (uniqueFirst l).Nodup :=
  nodup_uniqueFirstAux l []

theorem uniqueFirstAux_congr {α} [DecidableEq α] (l : List α) :
    ∀ (s1 s2 : List α), (∀ x, x ∈ s1 ↔ x ∈ s2) →
      uniqueFirstAux l s1 = uniqueFirstAux l s2 := by
  induction l with
  | nil => intro s1 s2 _; rfl
  | cons b l ih =>
    intro s1 s2 hss
    by_cases hb : b ∈ s1
    · rw [uniqueFirstAux, if_pos hb, uniqueFirstAux,
        if_pos ((hss b).mp hb)]
      exact ih s1 s2 hss
    · rw [uniqueFirstAux, if_neg hb, uniqueFirstAux,
        if_neg (fun hmem => hb ((hss b).mpr hmem))]
      refine congrArg (b :: ·) (ih (b :: s1) (b :: s2) ?_)
      intro x
      simp [hss x]

theorem rowGet_append_left (r extra : Row) (c : String) (v : Cell)
    (h : rowGet r c = some v) : rowGet (r ++ extra) c = some v := by
  unfold rowGet at h ⊢
  rw [List.find?_append]
  cases hf : r.find? (fun p => p.1 == c) with
  | none => rw [hf] at h; simp at h
  | some p => rw [hf] at h; simp [Option.or, hf, h]

theorem rowGet_append_single_ne (r : Row) (c c2 : String) (v : Cell)
    (hne : c2 ≠ c) : rowGet (r ++ [(c2, v)]) c = rowGet r c := by
  unfold rowGet
  rw [List.find?_append]
  have hbe : (c2 == c) = false := by simpa using hne
  cases hf : r.find? (fun p => p.1 == c) with
  | none => simp [List.find?, hbe]
  | some p => simp [Option.or]

theorem extendsRow_refl (r : Row) : extendsRow r r := fun _ _ h => h

theorem extendsRow_append (r extra : Row) : extendsRow (r ++ extra) r :=
  fun c v h => rowGet_append_left r extra c v h

theorem extendsRow_trans {a b c : Row} (h1 : extendsRow a b)
    (h2 : extendsRow b c) : extendsRow a c :=
  fun col v h => h1 col v (h2 col v h)

namespace Tools1

theorem extractOne_eq_none (score : Cell → Nat) (l : List Cell) :
    extractOne score l = none ↔ l = [] := by
  cases l with
  | nil => simp [extractOne]
  | cons a rest =>
    simp only [extractOne]
    cases extractOne score rest with
    | none => simp
    | some p =>
      obtain ⟨b, s⟩ := p
      by_cases hgt : score a < s <;> simp [hgt]

theorem extractOne_some (score : Cell → Nat) (l : List Cell) (b : Cell)
    (s : Nat) (h : extractOne score l = some (b, s)) :
    b ∈ l ∧ s = score b ∧ ∀ c ∈ l, score c ≤ s := by
  induction l generalizing b s with
  | nil => simp [extractOne] at h
  | cons a rest ih =>
    simp only [extractOne] at h
    cases hr : extractOne score rest with
    | none =>
      rw [hr] at h
      have hrest : rest = [] := (extractOne_eq_none score rest).mp hr
      subst hrest
      simp only [Option.some.injEq, Prod.mk.injEq] at h
      obtain ⟨hb, hs⟩ := h
      subst hb; subst hs
      exact ⟨by simp, rfl, by simp⟩
    | some p =>
      obtain ⟨b2, s2⟩ := p
      rw [hr] at h
      replace h : (if s2 > score a then some (b2, s2)
          else some (a, score a)) = some (b, s) := h
      obtain ⟨hb2, hs2, hmax2⟩ := ih b2 s2 hr
      by_cases hgt : s2 > score a
      · rw [if_pos hgt] at h
        simp only [Option.some.injEq, Prod.mk.injEq] at h
        obtain ⟨hb, hs⟩ := h
        subst hb; subst hs
        refine ⟨List.mem_cons_of_mem a hb2, hs2, ?_⟩
        intro c hc
        rcases List.mem_cons.mp hc with hca | hcr
        · subst hca; omega
        · exact hmax2 c hcr
      · rw [if_neg hgt] at h
        simp only [Option.some.injEq, Prod.mk.injEq] at h
        obtain ⟨hb, hs⟩ := h
        subst hb; subst hs
        refine ⟨by simp, rfl, ?_⟩
        intro c hc
        rcases List.mem_cons.mp hc with hca | hcr
        · subst hca; omega
        · have := hmax2 c hcr; omega

theorem extractOne_spec (score : Cell → Nat) (l : List Cell) (h : l ≠ []) :
    ∃ b s, extractOne score l = some (b, s) ∧ b ∈ l ∧ s = score b ∧
      ∀ c ∈ l, score c ≤ s := by
  cases hext : extractOne score l with
  | none => exact absurd ((extractOne_eq_none score l).mp hext) h
  | some p =>
    obtain ⟨b, s⟩ := p
    obtain ⟨hb, hs, hmax⟩ := extractOne_some score l b s hext
    exact ⟨b, s, rfl, hb, hs, hmax⟩

theorem geneWhere_true (gs : List String) (r : Row)
    (h : geneWhere gs r = true) :
    ∃ g, rowGet r "OFFICIAL_SYMBOL" = some (Cell.str g) ∧ g ∈ gs := by
  unfold geneWhere at h
  cases hg : rowGet r "OFFICIAL_SYMBOL" with
  | none => rw [hg] at h; simp at h
  | some c =>
    cases c with
    | null => rw [hg] at h; simp at h
    | int n => rw [hg] at h; simp at h
    | str g =>
      rw [hg] at h
      exact ⟨g, rfl, by simpa using h⟩

theorem enrich_cons (df : Table) (c2 : String) (rest : List String) (m : Row) :
    enrich_with_meta df (c2 :: rest) m =
      enrich_with_meta (if df.cols.contains c2 then df
        else ⟨df.cols ++ [c2], df.rows.map
          (fun r => r ++ [(c2, rowGetD m c2)])⟩) rest m := rfl

theorem enrich_preserves (df : Table) (idxCols : List String) (m : Row)
    (c : String) (hc : c ∈ df.cols) :
    c ∈ (enrich_with_meta df idxCols m).cols ∧
      (enrich_with_meta df idxCols m).rows.map (fun r => rowGet r c)
        = df.rows.map (fun r => rowGet r c) := by
  induction idxCols generalizing df with
  | nil => exact ⟨hc, rfl⟩
  | cons c2 rest ih =>
    rw [enrich_cons]
    by_cases h2 : df.cols.contains c2
    · rw [if_pos h2]
      exact ih df hc
    · rw [if_neg h2]
      have hne : c2 ≠ c := by
        intro he
        exact h2 (by simpa [he] using hc)
      obtain ⟨ha, hb⟩ := ih ⟨df.cols ++ [c2], df.rows.map
          (fun r => r ++ [(c2, rowGetD m c2)])⟩
        (by simpa using Or.inl hc)
      refine ⟨ha, ?_⟩
      rw [hb]
      simp only [List.map_map]
      apply List.map_congr_left
      intro r _
      exact rowGet_append_single_ne r c c2 (rowGetD m c2) hne

theorem enrich_cols_extend (df : Table) (idxCols : List String) (m : Row) :
    ∃ l, (enrich_with_meta df idxCols m).cols = df.cols ++ l ∧
      ∀ x ∈ l, x ∈ idxCols ∧ x ∉ df.cols := by
  induction idxCols generalizing df with
  | nil => exact ⟨[], by simp [enrich_with_meta], by simp⟩
  | cons c2 rest ih =>
    rw [enrich_cons]
    by_cases h2 : df.cols.contains c2
    · rw [if_pos h2]
      obtain ⟨l, hl, hprop⟩ := ih df
      exact ⟨l, hl, fun x hx =>
        ⟨List.mem_cons_of_mem c2 (hprop x hx).1, (hprop x hx).2⟩⟩
    · rw [if_neg h2]
      obtain ⟨l, hl, hprop⟩ := ih ⟨df.cols ++ [c2], df.rows.map
          (fun r => r ++ [(c2, rowGetD m c2)])⟩
      refine ⟨c2 :: l, by simpa using hl, ?_⟩
      intro x hx
      rcases List.mem_cons.mp hx with hx2 | hxl
      · rw [hx2]
        exact ⟨List.mem_cons_self c2 rest, by simpa using h2⟩
      · obtain ⟨hr, hn⟩ := hprop x hxl
        refine ⟨List.mem_cons_of_mem c2 hr, fun hmem => hn ?_⟩
        simp [hmem]

theorem enrich_rows_extend (df : Table) (idxCols : List String) (m : Row) :
    ∀ row ∈ (enrich_with_meta df idxCols m).rows,
      ∃ r ∈ df.rows, extendsRow row r := by
  induction idxCols generalizing df with
  | nil => exact fun row hrow => ⟨row, hrow, extendsRow_refl row⟩
  | cons c2 rest ih =>
    intro row hrow
    rw [enrich_cons] at hrow
    by_cases h2 : df.cols.contains c2
    · rw [if_pos h2] at hrow
      exact ih df row hrow
    · rw [if_neg h2] at hrow
      obtain ⟨r2, hr2, hext⟩ := ih _ row hrow
      simp only [List.mem_map] at hr2
      obtain ⟨r, hr, hreq⟩ := hr2
      subst hreq
      exact ⟨r, hr, extendsRow_trans hext (extendsRow_append r _)⟩

theorem load_filtered_genes (fs : FS) (sid : Cell) (bucket pfx : String)
    (gs : List String) (df : Table)
    (h : load_screen_tab_filtered fs sid bucket pfx
      (some (.many gs)) none none = .ok df) :
    ∀ row ∈ df.rows, ∃ g, g ∈ gs ∧
      rowGet row "OFFICIAL_SYMBOL" = some (Cell.str g) := by
  unfold load_screen_tab_filtered at h
  simp only [Option.map, GenesArg.toList] at h
  by_cases hgs : gs = []
  · rw [if_pos (by simp [hgs])] at h
    exact absurd h (by simp)
  · rw [if_neg (by simpa using hgs)] at h
    cases hfs : fs (screen_tab_path bucket pfx sid) with
    | none => rw [hfs] at h; exact absurd h (by simp)
    | some t =>
      rw [hfs] at h
      simp only [Except.ok.injEq] at h
      subst h
      intro row hrow
      simp only [List.mem_map] at hrow
      obtain ⟨r, hr, hreq⟩ := hrow
      subst hreq
      have hkept := List.of_mem_filter hr
      have hgw : geneWhere gs r = true := by
        simp only [whereClauses, Bool.and_eq_true] at hkept
        exact hkept.1.1
      obtain ⟨g, hget, hmem⟩ := geneWhere_true gs r hgw
      exact ⟨g, hmem, rowGet_append_left r _ _ _ hget⟩

theorem screens_fanout_rows (fs : FS) (bucket pfx : String)
    (ids : List Cell) (ts : List Table)
    (h : screens_fanout fs bucket pfx ids = .ok ts) :
    ts.flatMap Table.rows = ids.flatMap (loaded_rows fs bucket pfx) := by
  induction ids generalizing ts with
  | nil =>
    simp only [screens_fanout, Except.ok.injEq] at h
    subst h; rfl
  | cons sid rest ih =>
    simp only [screens_fanout] at h
    cases hload : load_screen_tab_filtered fs sid bucket pfx none none none with
    | error e => rw [hload] at h; exact absurd h (by simp)
    | ok df =>
      rw [hload] at h
      cases hrec : screens_fanout fs bucket pfx rest with
      | error e => rw [hrec] at h; exact absurd h (by simp)
      | ok ts2 =>
        rw [hrec] at h
        replace h : (if df.isEmpty then Except.ok ts2
            else Except.ok (df :: ts2)) = Except.ok ts := h
        have hrest := ih ts2 hrec
        by_cases he : df.isEmpty
        · rw [if_pos he] at h
          simp only [Except.ok.injEq] at h
          subst h
          have hdf : df.rows = [] := by
            simpa [Table.isEmpty, List.isEmpty_iff] using he
          simp [List.flatMap_cons, hrest, loaded_rows, hload, hdf]
        · rw [if_neg he] at h
          simp only [Except.ok.injEq] at h
          subst h
          simp [List.flatMap_cons, hrest, loaded_rows, hload]

theorem genes_fanout_rows (fs : FS) (idx : Table) (gs : List String)
    (bucket pfx : String) (ids : List Cell) (ts : List Table)
    (h : genes_fanout fs idx gs bucket pfx ids = .ok ts) :
    ts.flatMap Table.rows
      = ids.flatMap (fun sid =>
          (gene_screen_table fs idx gs bucket pfx sid).rows) := by
  induction ids generalizing ts with
  | nil =>
    simp only [genes_fanout, Except.ok.injEq] at h
    subst h; rfl
  | cons sid rest ih =>
    simp only [genes_fanout] at h
    cases hload : load_screen_tab_filtered fs sid bucket pfx
        (some (.many gs)) none none with
    | error e => rw [hload] at h; exact absurd h (by simp)
    | ok df =>
      rw [hload] at h
      cases hrec : genes_fanout fs idx gs bucket pfx rest with
      | error e => rw [hrec] at h; exact absurd h (by simp)
      | ok ts2 =>
        rw [hrec] at h
        replace h : (if df.isEmpty then Except.ok ts2
            else match idx.rows.find? (fun r => rowGetD r "SCREEN_ID" == sid) with
              | some m => Except.ok (enrich_with_meta df idx.cols m :: ts2)
              | none => Except.ok (df :: ts2)) = Except.ok ts := h
        have hrest := ih ts2 hrec
        by_cases he : df.isEmpty
        · rw [if_pos he] at h
          simp only [Except.ok.injEq] at h
          subst h
          simp [List.flatMap_cons, hrest, gene_screen_table, hload, he,
            Table.empty]
        · rw [if_neg he] at h
          cases hfind : idx.rows.find? (fun r => rowGetD r "SCREEN_ID" == sid) with
          | some m =>
            rw [hfind] at h
            replace h : Except.ok (ε := Unit)
                (enrich_with_meta df idx.cols m :: ts2) = Except.ok ts := h
            simp only [Except.ok.injEq] at h
            subst h
            simp [List.flatMap_cons, hrest, gene_screen_table, hload, he, hfind]
          | none =>
            rw [hfind] at h
            replace h : Except.ok (ε := Unit) (df :: ts2) = Except.ok ts := h
            simp only [Except.ok.injEq] at h
            subst h
            simp [List.flatMap_cons, hrest, gene_screen_table, hload, he, hfind]

theorem genes_fanout_symbol (fs : FS) (idx : Table) (gs : List String)
    (bucket pfx : String) (ids : List Cell) (ts : List Table)
    (h : genes_fanout fs idx gs bucket pfx ids = .ok ts) :
    ∀ tb ∈ ts, ∀ row ∈ tb.rows, ∃ g, g ∈ gs ∧
      rowGet row "OFFICIAL_SYMBOL" = some (Cell.str g) := by
  induction ids generalizing ts with
  | nil =>
    simp only [genes_fanout, Except.ok.injEq] at h
    subst h; simp
  | cons sid rest ih =>
    simp only [genes_fanout] at h
    cases hload : load_screen_tab_filtered fs sid bucket pfx
        (some (.many gs)) none none with
    | error e => rw [hload] at h; exact absurd h (by simp)
    | ok df =>
      rw [hload] at h
      cases hrec : genes_fanout fs idx gs bucket pfx rest with
      | error e => rw [hrec] at h; exact absurd h (by simp)
      | ok ts2 =>
        rw [hrec] at h
        replace h : (if df.isEmpty then Except.ok ts2
            else match idx.rows.find? (fun r => rowGetD r "SCREEN_ID" == sid) with
              | some m => Except.ok (enrich_with_meta df idx.cols m :: ts2)
              | none => Except.ok (df :: ts2)) = Except.ok ts := h
        have hdf := load_filtered_genes fs sid bucket pfx gs df hload
        have hrest := ih ts2 hrec
        by_cases he : df.isEmpty
        · rw [if_pos he] at h
          simp only [Except.ok.injEq] at h
          subst h
          exact hrest
        · rw [if_neg he] at h
          have hmain : ∀ tb2 : Table, (∀ row ∈ tb2.rows, ∃ r ∈ df.rows, extendsRow row r) →
              ∀ row ∈ tb2.rows, ∃ g, g ∈ gs ∧
                rowGet row "OFFICIAL_SYMBOL" = some (Cell.str g) := by
            intro tb2 hextend row hrow
            obtain ⟨r, hr, hext⟩ := hextend row hrow
            obtain ⟨g, hg, hget⟩ := hdf r hr
            exact ⟨g, hg, hext _ _ hget⟩
          cases hfind : idx.rows.find? (fun r => rowGetD r "SCREEN_ID" == sid) with
          | some m =>
            rw [hfind] at h
            replace h : Except.ok (ε := Unit)
                (enrich_with_meta df idx.cols m :: ts2) = Except.ok ts := h
            simp only [Except.ok.injEq] at h
            subst h
            intro tb htb
            rcases List.mem_cons.mp htb with htb1 | htb2
            · subst htb1
              exact hmain _ (enrich_rows_extend df idx.cols m)
            · exact hrest tb htb2
          | none =>
            rw [hfind] at h
            replace h : Except.ok (ε := Unit) (df :: ts2) = Except.ok ts := h
            simp only [Except.ok.injEq] at h
            subst h
            intro tb htb
            rcases List.mem_cons.mp htb with htb1 | htb2
            · subst htb1
              exact hmain _ (fun row hrow => ⟨row, hrow, extendsRow_refl row⟩)
            · exact hrest tb htb2

end Tools1

namespace Tools2

theorem qgas_go_all_missing (fs : FS) (gene : String) (idx : Table)
    (dir : String) (l : List Cell)
    (h : ∀ sid, fs (get_screen_path sid dir) = none) :
    query_gene_across_screens.go fs gene idx dir l = .ok [] := by
  induction l with
  | nil => rfl
  | cons sid rest ih =>
    simp only [query_gene_across_screens.go, h sid]
    exact ih

theorem qgas_go_entries (fs : FS) (gene : String) (idx : Table)
    (dir : String) (l : List Cell) (res : List GQEntry)
    (h : query_gene_across_screens.go fs gene idx dir l = .ok res) :
    ∀ e ∈ res, fs (get_screen_path e.screen_id dir) ≠ none := by
  induction l generalizing res with
  | nil =>
    simp only [query_gene_across_screens.go, Except.ok.injEq] at h
    subst h; simp
  | cons sid rest ih =>
    simp only [query_gene_across_screens.go] at h
    cases hfs : fs (get_screen_path sid dir) with
    | none =>
      rw [hfs] at h
      exact ih res h
    | some t =>
      simp only [hfs] at h
      by_cases hge : (get_gene_row t gene).isEmpty
      · rw [if_pos hge] at h
        exact ih res h
      · rw [if_neg hge] at h
        cases hmeta : get_screen_metadata idx sid with
        | error e => simp only [hmeta] at h; exact absurd h (by simp)
        | ok meta =>
          simp only [hmeta] at h
          cases hrec : query_gene_across_screens.go fs gene idx dir rest with
          | error e => simp only [hrec] at h; exact absurd h (by simp)
          | ok l2 =>
            simp only [hrec, Except.ok.injEq] at h
            subst h
            intro e he
            rcases List.mem_cons.mp he with he1 | he2
            · subst he1
              simp [hfs]
            · exact ih l2 hrec e he2

end Tools2

theorem spec_fold_eq (l : List Cell) : ∀ acc : List Cell,
    l.foldl (fun acc v => if v = Cell.null ∨ v ∈ acc then acc else acc ++ [v]) acc
      = acc ++ uniqueFirstAux (l.filter (fun v => v ≠ Cell.null)) acc := by
  induction l with
  | nil => intro acc; simp [uniqueFirstAux]
  | cons v l ih =>
    intro acc
    simp only [List.foldl_cons, List.filter_cons]
    by_cases hnull : v = Cell.null
    · rw [if_pos (Or.inl hnull)]
      rw [show (decide (v ≠ Cell.null)) = false by simp [hnull]]
      simp only [Bool.false_eq_true, if_false]
      exact ih acc
    · rw [show (decide (v ≠ Cell.null)) = true by simp [hnull]]
      simp only [if_true]
      by_cases hv : v ∈ acc
      · rw [if_pos (Or.inr hv)]
        rw [uniqueFirstAux, if_pos hv]
        exact ih acc
      · rw [if_neg (by tauto)]
        rw [ih (acc ++ [v])]
        rw [uniqueFirstAux, if_neg hv]
        rw [uniqueFirstAux_congr (l.filter (fun x => x ≠ Cell.null))
          (acc ++ [v]) (v :: acc)
          (by intro x; simp [List.mem_append, or_comm])]
        rw [List.append_assoc]
        rfl

theorem spec_first_occurrence_eq (vals : List Cell) :
    spec_first_occurrence_distinct vals
      = uniqueFirst (vals.filter (fun v => v ≠ Cell.null)) := by
  unfold spec_first_occurrence_distinct uniqueFirst
  rw [spec_fold_eq vals []]
  rfl

namespace Tools2

theorem score1Desc_trans (a b c : Row) (h1 : score1Desc a b = true)
    (h2 : score1Desc b c = true) : score1Desc a c = true := by
  unfold score1Desc at h1 h2 ⊢
  cases ha : score1Key a <;> cases hb : score1Key b <;>
    cases hc : score1Key c <;> simp_all <;> omega

theorem score1Desc_total (a b : Row) :
    score1Desc a b || score1Desc b a := by
  unfold score1Desc
  cases ha : score1Key a <;> cases hb : score1Key b <;> simp <;> omega

end Tools2

/-! Claim theorems. -/

/-- C1 (counterexample): the claim that the Filtered Screen Reader
load_screen_tab_filtered returns an empty table and never raises for a
screen whose data file is absent is false: on an object store holding no
files at all, reading screen 1 propagates the read error and does not
return the empty table. -/
theorem claim_C1_counterexample :
    Tools1.load_screen_tab_filtered (fun _ => none) (Cell.int 1)
        Tools1.S3_BUCKET Tools1.S3_PREFIX none none none = .error ()
      ∧ Tools1.load_screen_tab_filtered (fun _ => none) (Cell.int 1)
        Tools1.S3_BUCKET Tools1.S3_PREFIX none none none ≠ .ok Table.empty := by
  have h1 : Tools1.load_screen_tab_filtered (fun _ => none) (Cell.int 1)
      Tools1.S3_BUCKET Tools1.S3_PREFIX none none none = .error () := rfl
  refine ⟨h1, ?_⟩
  intro h
  rw [h1] at h
  exact Except.noConfusion h

/-- C1 (amended): load_screen_tab_filtered performs no existence check
and propagates an error when the screen file is missing, rather than
returning an empty table; the tools2 aggregator query_gene_across_screens
does check existence first and skips missing screens, so missing files
contribute zero entries and never abort that aggregation. -/
theorem claim_C1_amended :
    (∀ (fs : FS) (sid : Cell) (bucket pfx : String)
        (g : Option Tools1.GenesArg) (hv : Option String) (s2 : Option Int),
      fs (Tools1.screen_tab_path bucket pfx sid) = none →
        Tools1.load_screen_tab_filtered fs sid bucket pfx g hv s2 = .error ())
    ∧ (∀ (fs : FS) (gene : String) (idx : Table) (dir : String),
      (∀ sid, fs (Tools2.get_screen_path sid dir) = none) →
        Tools2.query_gene_across_screens fs gene idx dir = .ok [])
    ∧ (∀ (fs : FS) (gene : String) (idx : Table) (dir : String)
        (res : List Tools2.GQEntry),
      Tools2.query_gene_across_screens fs gene idx dir = .ok res →
        ∀ e ∈ res, fs (Tools2.get_screen_path e.screen_id dir) ≠ none) := by
  refine ⟨?_, ?_, ?_⟩
  · intro fs sid bucket pfx g hv s2 hfs
    unfold Tools1.load_screen_tab_filtered
    by_cases hg : g.map Tools1.GenesArg.toList = some []
    · rw [if_pos hg]
    · rw [if_neg hg, hfs]
  · intro fs gene idx dir h
    exact Tools2.qgas_go_all_missing fs gene idx dir _ h
  · intro fs gene idx dir res h
    exact Tools2.qgas_go_entries fs gene idx dir _ res h

/-- C1 (witness): the amended theorem applied at concrete inputs: the
empty object store, screen 1, and an index with a single screen row. -/
theorem claim_C1_amended_witness :
    Tools1.load_screen_tab_filtered (fun _ => none) (Cell.int 1)
        Tools1.S3_BUCKET Tools1.S3_PREFIX none none none = .error ()
      ∧ Tools2.query_gene_across_screens (fun _ => none) "TP53"
          ⟨["SCREEN_ID"], [[("SCREEN_ID", Cell.int 1)]]⟩ Tools2.SCREEN_DIR
          = .ok []
      ∧ ∀ e ∈ ([] : List Tools2.GQEntry),
          (fun _ => none : FS) (Tools2.get_screen_path e.screen_id
            Tools2.SCREEN_DIR) ≠ none :=
  ⟨claim_C1_amended.1 (fun _ => none) (Cell.int 1) Tools1.S3_BUCKET
      Tools1.S3_PREFIX none none none rfl,
   claim_C1_amended.2.1 (fun _ => none) "TP53"
      ⟨["SCREEN_ID"], [[("SCREEN_ID", Cell.int 1)]]⟩ Tools2.SCREEN_DIR
      (fun _ => rfl),
   claim_C1_amended.2.2 (fun _ => none) "TP53"
      ⟨["SCREEN_ID"], [[("SCREEN_ID", Cell.int 1)]]⟩ Tools2.SCREEN_DIR []
      (Tools2.qgas_go_all_missing (fun _ => none) "TP53"
        ⟨["SCREEN_ID"], [[("SCREEN_ID", Cell.int 1)]]⟩ Tools2.SCREEN_DIR _
        (fun _ => rfl))⟩

/-- C5: the metadata-enrichment loop of the by-gene-set aggregator copies
in only index columns not already present in the screen-level table: any
column already present keeps its value in every row, stays in the column
list, and every added column comes from the index columns and was absent
from the screen table. -/
theorem claim_C5_enrichment (df : Table) (idxCols : List String) (m : Row)
    (c : String) (hc : c ∈ df.cols) :
    (Tools1.enrich_with_meta df idxCols m).rows.map (fun r => rowGet r c)
        = df.rows.map (fun r => rowGet r c)
      ∧ c ∈ (Tools1.enrich_with_meta df idxCols m).cols
      ∧ ∃ l, (Tools1.enrich_with_meta df idxCols m).cols = df.cols ++ l
          ∧ ∀ x ∈ l, x ∈ idxCols ∧ x ∉ df.cols := by
  obtain ⟨ha, hb⟩ := Tools1.enrich_preserves df idxCols m c hc
  exact ⟨hb, ha, Tools1.enrich_cols_extend df idxCols m⟩

/-- C5 (witness): enrichment of a one-row screen table whose CELL_LINE
column clashes with a different CELL_LINE value in the index row keeps
the screen value and adds only the absent ORGANISM column. -/
theorem claim_C5_enrichment_witness :
    ("CELL_LINE" ∈ (⟨["OFFICIAL_SYMBOL", "CELL_LINE"],
        [[("OFFICIAL_SYMBOL", Cell.str "TP53"),
          ("CELL_LINE", Cell.str "A549")]]⟩ : Table).cols)
      ∧ (Tools1.enrich_with_meta
          ⟨["OFFICIAL_SYMBOL", "CELL_LINE"],
            [[("OFFICIAL_SYMBOL", Cell.str "TP53"),
              ("CELL_LINE", Cell.str "A549")]]⟩
          ["CELL_LINE", "ORGANISM"]
          [("CELL_LINE", Cell.str "Calu-3"), ("ORGANISM", Cell.str "Homo sapiens")]).rows.map
            (fun r => rowGet r "CELL_LINE")
        = (⟨["OFFICIAL_SYMBOL", "CELL_LINE"],
            [[("OFFICIAL_SYMBOL", Cell.str "TP53"),
              ("CELL_LINE", Cell.str "A549")]]⟩ : Table).rows.map
            (fun r => rowGet r "CELL_LINE") :=
  ⟨by decide,
   (claim_C5_enrichment
      ⟨["OFFICIAL_SYMBOL", "CELL_LINE"],
        [[("OFFICIAL_SYMBOL", Cell.str "TP53"),
          ("CELL_LINE", Cell.str "A549")]]⟩
      ["CELL_LINE", "ORGANISM"]
      [("CELL_LINE", Cell.str "Calu-3"), ("ORGANISM", Cell.str "Homo sapiens")]
      "CELL_LINE" (by decide)).1⟩

/-- C9: scalar inputs are promoted to singleton lists at the public
interface: get_results_by_genes on a bare gene string, and
get_results_by_screens on a bare string or integer identifier, return
the same table as on the corresponding singleton list, and likewise for
the gene_symbols argument of load_screen_tab_filtered. -/
theorem claim_C9_scalar_promotion (fs : FS) (idx : Table) (g : String)
    (s : String) (n : Int) (sid : Cell) (bucket pfx : String)
    (hv : Option String) (s2 : Option Int) :
    Tools1.get_results_by_genes fs idx (.one g) bucket pfx
        = Tools1.get_results_by_genes fs idx (.many [g]) bucket pfx
      ∧ Tools1.get_results_by_screens fs (.str s) bucket pfx
        = Tools1.get_results_by_screens fs (.list [Cell.str s]) bucket pfx
      ∧ Tools1.get_results_by_screens fs (.int n) bucket pfx
        = Tools1.get_results_by_screens fs (.list [Cell.int n]) bucket pfx
      ∧ Tools1.load_screen_tab_filtered fs sid bucket pfx (some (.one g)) hv s2
        = Tools1.load_screen_tab_filtered fs sid bucket pfx
            (some (.many [g])) hv s2 :=
  ⟨rfl, rfl, rfl, rfl⟩

/-- C10: a screen identifier absent from the Index Table is signalled by
None rather than an exception: get_screen_metadata and
get_significance_criteria return None, and explain_significance then
returns the string "No criteria found.". -/
theorem claim_C10_absent_screen (idx : Table) (n : Int)
    (h : ∀ r ∈ idx.rows, rowGetD r "SCREEN_ID" ≠ Cell.int n) :
    Tools2.get_screen_metadata idx (Cell.int n) = .ok none
      ∧ Tools2.get_significance_criteria idx (Cell.int n) = .ok none
      ∧ Tools2.explain_significance idx (Cell.int n)
        = .ok "No criteria found." := by
  have hfind : idx.rows.find? (fun r => rowGetD r "SCREEN_ID" == Cell.int n)
      = none := by
    rw [List.find?_eq_none]
    intro r hr
    simpa using h r hr
  refine ⟨?_, ?_, ?_⟩
  · simp [Tools2.get_screen_metadata, Tools2.cellAsInt, hfind]
  · simp [Tools2.get_significance_criteria, Tools2.cellAsInt, hfind]
  · simp [Tools2.explain_significance, Tools2.get_significance_criteria,
      Tools2.cellAsInt, hfind]

/-- C2: a case-insensitive exact match always wins: whenever some index
row's condition value equals the query case-insensitively, the Condition
Matcher returns exactly the screen identifiers of all exactly matching
rows (without duplicates), and the result is the same for every
approximate scorer and every threshold — the approximate matcher is
never consulted. -/
theorem claim_C2_exact_precedence (scorer : Cell → Nat) (idx : Table)
    (q : String) (col : String) (thr : Nat)
    (h : ∃ r ∈ idx.rows, Tools1.lowerMatches q (rowGet r col) = true) :
    ∃ ids, Tools1.get_condition_screen_ids scorer idx q col thr
        = .ok (some ids)
      ∧ ids.Nodup
      ∧ (∀ c, c ∈ ids ↔ ∃ r ∈ idx.rows,
          Tools1.lowerMatches q (rowGet r col) = true
            ∧ rowGetD r "SCREEN_ID" = c)
      ∧ ∀ (scorer2 : Cell → Nat) (thr2 : Nat),
          Tools1.get_condition_screen_ids scorer2 idx q col thr2
            = Tools1.get_condition_screen_ids scorer idx q col thr := by
  have hfe : (idx.rows.filter
      (fun r => Tools1.lowerMatches q (rowGet r col))).isEmpty = false := by
    obtain ⟨r, hr, hp⟩ := h
    cases hb : (idx.rows.filter
        (fun r => Tools1.lowerMatches q (rowGet r col))).isEmpty
    · rfl
    · exfalso
      rw [List.isEmpty_iff] at hb
      rw [List.filter_eq_nil_iff] at hb
      exact hb r hr (by simp [hp])
  refine ⟨uniqueFirst ((idx.rows.filter
      (fun r => Tools1.lowerMatches q (rowGet r col))).map
      (fun r => rowGetD r "SCREEN_ID")), ?_, nodup_uniqueFirst _, ?_, ?_⟩
  · simp [Tools1.get_condition_screen_ids, hfe]
  · intro c
    rw [mem_uniqueFirst]
    simp only [List.mem_map, List.mem_filter]
    constructor
    · rintro ⟨r, ⟨hr, hp⟩, hc⟩
      exact ⟨r, hr, hp, hc⟩
    · rintro ⟨r, hr, hp, hc⟩
      exact ⟨r, ⟨hr, hp⟩, hc⟩
  · intro scorer2 thr2
    simp [Tools1.get_condition_screen_ids, hfe]

/-- C2 (witness): on the worked-example index, the query influenza a has
an exact case-insensitive match, and the matcher returns screen 101 for
every scorer (here the constant-zero scorer). -/
theorem claim_C2_exact_precedence_witness :
    ∃ ids, Tools1.get_condition_screen_ids (fun _ => 0) sampleIdx
        "influenza a" "CONDITION_NAME" 70 = .ok (some ids)
      ∧ ids.Nodup ∧ Cell.int 101 ∈ ids := by
  obtain ⟨ids, h1, h2, h3, _⟩ := claim_C2_exact_precedence (fun _ => 0)
    sampleIdx "influenza a" "CONDITION_NAME" 70
    ⟨[("SCREEN_ID", Cell.int 101), ("CONDITION_NAME", Cell.str "Influenza A"),
      ("CELL_LINE", Cell.str "A549")], by decide, by decide⟩
  refine ⟨ids, h1, h2, (h3 (Cell.int 101)).mpr ?_⟩
  exact ⟨[("SCREEN_ID", Cell.int 101),
    ("CONDITION_NAME", Cell.str "Influenza A"),
    ("CELL_LINE", Cell.str "A549")], by decide, by decide, by decide⟩

/-- C3: with no case-insensitive exact match and a non-empty vocabulary,
the Condition Matcher takes the single best approximate match (the first
choice attaining the maximal score): strictly above the threshold it
returns the screen identifiers of the rows equal to that best match, and
at or below the threshold it returns an empty result — the matcher
reports no match and the by-condition aggregator returns the empty
table, not an error. -/
theorem claim_C3_fuzzy_threshold (scorer : Cell → Nat) (idx : Table)
    (q : String) (col : String) (thr : Nat)
    (hex : ∀ r ∈ idx.rows, Tools1.lowerMatches q (rowGet r col) = false)
    (hne : dropnaUnique idx col ≠ []) :
    ∃ b s, Tools1.extractOne scorer (dropnaUnique idx col) = some (b, s)
      ∧ b ∈ dropnaUnique idx col ∧ s = scorer b
      ∧ (∀ c ∈ dropnaUnique idx col, scorer c ≤ s)
      ∧ (s > thr → Tools1.get_condition_screen_ids scorer idx q col thr
          = .ok (some (uniqueFirst
              ((idx.rows.filter (fun r => rowGetD r col == b)).map
                (fun r => rowGetD r "SCREEN_ID")))))
      ∧ (s ≤ thr →
          Tools1.get_condition_screen_ids scorer idx q col thr = .ok none
            ∧ ∀ (fs : FS) (bucket pfx : String),
                Tools1.get_results_by_condition fs scorer idx q col thr
                  bucket pfx = .ok Table.empty) := by
  have hfe : (idx.rows.filter
      (fun r => Tools1.lowerMatches q (rowGet r col))).isEmpty = true := by
    rw [List.isEmpty_iff, List.filter_eq_nil_iff]
    intro r hr
    simp [hex r hr]
  obtain ⟨b, s, hext, hmem, hs, hmax⟩ :=
    Tools1.extractOne_spec scorer (dropnaUnique idx col) hne
  refine ⟨b, s, hext, hmem, hs, hmax, ?_, ?_⟩
  · intro hgt
    simp only [Tools1.get_condition_screen_ids, hfe, if_true, hext]
    rw [if_pos hgt]
  · intro hle
    have hids : Tools1.get_condition_screen_ids scorer idx q col thr
        = .ok none := by
      simp only [Tools1.get_condition_screen_ids, hfe, if_true, hext]
      rw [if_neg (by omega)]
    refine ⟨hids, ?_⟩
    intro fs bucket pfx
    simp [Tools1.get_results_by_condition, hids]

/-- C3 (witness): on the worked-example index with the query Influenza
(no exact match) and a scorer giving Influenza A the best score 85, a
threshold of 70 is exceeded and screen 101 is returned, while a
threshold of exactly 85 (the boundary) yields the empty result. -/
theorem claim_C3_fuzzy_threshold_witness :
    Tools1.get_condition_screen_ids
        (fun c => if c = Cell.str "Influenza A" then 85 else 40) sampleIdx
        "Influenza" "CONDITION_NAME" 70 = .ok (some [Cell.int 101])
      ∧ Tools1.get_condition_screen_ids
        (fun c => if c = Cell.str "Influenza A" then 85 else 40) sampleIdx
        "Influenza" "CONDITION_NAME" 85 = .ok none := by
  constructor
  · obtain ⟨b, s, hext, _, _, _, hgt, _⟩ := claim_C3_fuzzy_threshold
      (fun c => if c = Cell.str "Influenza A" then 85 else 40) sampleIdx
      "Influenza" "CONDITION_NAME" 70 (by decide) (by decide)
    have he : Tools1.extractOne
        (fun c => if c = Cell.str "Influenza A" then 85 else 40)
        (dropnaUnique sampleIdx "CONDITION_NAME")
        = some (Cell.str "Influenza A", 85) := by decide
    rw [hext] at he
    simp only [Option.some.injEq, Prod.mk.injEq] at he
    obtain ⟨hb, hs⟩ := he
    subst hb; subst hs
    rw [hgt (by omega)]
    decide
  · obtain ⟨b, s, hext, _, _, _, _, hle⟩ := claim_C3_fuzzy_threshold
      (fun c => if c = Cell.str "Influenza A" then 85 else 40) sampleIdx
      "Influenza" "CONDITION_NAME" 85 (by decide) (by decide)
    have he : Tools1.extractOne
        (fun c => if c = Cell.str "Influenza A" then 85 else 40)
        (dropnaUnique sampleIdx "CONDITION_NAME")
        = some (Cell.str "Influenza A", 85) := by decide
    rw [hext] at he
    simp only [Option.some.injEq, Prod.mk.injEq] at he
    obtain ⟨hb, hs⟩ := he
    subst hb; subst hs
    exact (hle (by omega)).1

/-- C4: every row of a table returned by the by-gene-set aggregator has
an OFFICIAL_SYMBOL value equal, as a stored string and case-sensitively,
to one of the requested gene symbols. -/
theorem claim_C4_gene_membership (fs : FS) (idx : Table)
    (genes : Tools1.GenesArg) (bucket pfx : String) (t : Table)
    (h : Tools1.get_results_by_genes fs idx genes bucket pfx = .ok t) :
    ∀ row ∈ t.rows, ∃ g, g ∈ genes.toList
      ∧ rowGet row "OFFICIAL_SYMBOL" = some (Cell.str g) := by
  unfold Tools1.get_results_by_genes at h
  cases hf : Tools1.genes_fanout fs idx genes.toList bucket pfx
      (Tools1.index_screen_ids idx) with
  | error e => simp only [hf] at h; exact absurd h (by simp)
  | ok ts =>
    simp only [hf] at h
    have hsym := Tools1.genes_fanout_symbol fs idx genes.toList bucket pfx
      (Tools1.index_screen_ids idx) ts hf
    by_cases he : ts.isEmpty
    · rw [if_pos he] at h
      simp only [Except.ok.injEq] at h
      subst h
      simp [Table.empty]
    · rw [if_neg he] at h
      simp only [Except.ok.injEq] at h
      subst h
      intro row hrow
      have : row ∈ ts.flatMap Table.rows := hrow
      rw [List.mem_flatMap] at this
      obtain ⟨tb, htb, hrowtb⟩ := this
      obtain ⟨g, hg, hget⟩ := hsym tb htb row hrowtb
      exact ⟨g, hg, hget⟩

/-- C4 (witness): requesting TP53 over the sample store returns exactly
the enriched TP53 row of screen 101, whose official symbol is TP53. -/
theorem claim_C4_gene_membership_witness :
    ∃ g, g ∈ (Tools1.GenesArg.many ["TP53"]).toList
      ∧ rowGet [("OFFICIAL_SYMBOL", Cell.str "TP53"), ("HIT", Cell.str "YES"),
          ("SCORE.1", Cell.int 3), ("SCREEN_ID", Cell.int 101),
          ("CONDITION_NAME", Cell.str "Influenza A"),
          ("CELL_LINE", Cell.str "A549")] "OFFICIAL_SYMBOL"
        = some (Cell.str g) :=
  claim_C4_gene_membership sampleFS sampleIdx (.many ["TP53"])
    Tools1.S3_BUCKET Tools1.S3_PREFIX
    ⟨["OFFICIAL_SYMBOL", "HIT", "SCORE.1", "SCREEN_ID",
      "CONDITION_NAME", "CELL_LINE"],
      [[("OFFICIAL_SYMBOL", Cell.str "TP53"), ("HIT", Cell.str "YES"),
        ("SCORE.1", Cell.int 3), ("SCREEN_ID", Cell.int 101),
        ("CONDITION_NAME", Cell.str "Influenza A"),
        ("CELL_LINE", Cell.str "A549")]]⟩ (by decide)
    [("OFFICIAL_SYMBOL", Cell.str "TP53"), ("HIT", Cell.str "YES"),
     ("SCORE.1", Cell.int 3), ("SCREEN_ID", Cell.int 101),
     ("CONDITION_NAME", Cell.str "Influenza A"),
     ("CELL_LINE", Cell.str "A549")] (by decide)

/-- C6: the aggregate output groups rows by screen in the order the
screens were requested or first seen: the rows of a by-screens result
are the concatenation of the per-screen row lists in request order, and
the rows of a by-gene-set result are the concatenation of the per-screen
enriched row lists in index first-seen order. -/
theorem claim_C6_screen_order :
    (∀ (fs : FS) (bucket pfx : String) (ids : List Cell) (t : Table),
      Tools1.get_results_by_screens fs (.list ids) bucket pfx = .ok t →
        t.rows = ids.flatMap (Tools1.loaded_rows fs bucket pfx))
    ∧ (∀ (fs : FS) (idx : Table) (genes : Tools1.GenesArg)
        (bucket pfx : String) (t : Table),
      Tools1.get_results_by_genes fs idx genes bucket pfx = .ok t →
        t.rows = (Tools1.index_screen_ids idx).flatMap
          (fun sid => (Tools1.gene_screen_table fs idx genes.toList
            bucket pfx sid).rows)) := by
  constructor
  · intro fs bucket pfx ids t h
    unfold Tools1.get_results_by_screens at h
    cases hf : Tools1.screens_fanout fs bucket pfx
        (Tools1.ScreensArg.list ids).toList with
    | error e => simp only [hf] at h; exact absurd h (by simp)
    | ok ts =>
      simp only [hf] at h
      have hrows := Tools1.screens_fanout_rows fs bucket pfx ids ts hf
      by_cases he : ts.isEmpty
      · rw [if_pos he] at h
        simp only [Except.ok.injEq] at h
        subst h
        have : ts = [] := by simpa [List.isEmpty_iff] using he
        subst this
        simpa [Table.empty] using hrows
      · rw [if_neg he] at h
        simp only [Except.ok.injEq] at h
        subst h
        exact hrows
  · intro fs idx genes bucket pfx t h
    unfold Tools1.get_results_by_genes at h
    cases hf : Tools1.genes_fanout fs idx genes.toList bucket pfx
        (Tools1.index_screen_ids idx) with
    | error e => simp only [hf] at h; exact absurd h (by simp)
    | ok ts =>
      simp only [hf] at h
      have hrows := Tools1.genes_fanout_rows fs idx genes.toList bucket pfx
        (Tools1.index_screen_ids idx) ts hf
      by_cases he : ts.isEmpty
      · rw [if_pos he] at h
        simp only [Except.ok.injEq] at h
        subst h
        have : ts = [] := by simpa [List.isEmpty_iff] using he
        subst this
        simpa [Table.empty] using hrows
      · rw [if_neg he] at h
        simp only [Except.ok.injEq] at h
        subst h
        exact hrows

/-- C6 (witness): requesting screens in the order 3, 1, 2 over the sample
store returns the rows of screen 3, then screen 1, then screen 2. -/
theorem claim_C6_screen_order_witness :
    (⟨["OFFICIAL_SYMBOL", "SCREEN_ID"],
      [[("OFFICIAL_SYMBOL", Cell.str "G3"), ("SCREEN_ID", Cell.int 3)],
       [("OFFICIAL_SYMBOL", Cell.str "G1"), ("SCREEN_ID", Cell.int 1)],
       [("OFFICIAL_SYMBOL", Cell.str "G2"), ("SCREEN_ID", Cell.int 2)]]⟩
      : Table).rows
      = [Cell.int 3, Cell.int 1, Cell.int 2].flatMap
          (Tools1.loaded_rows sampleFS Tools1.S3_BUCKET Tools1.S3_PREFIX) :=
  claim_C6_screen_order.1 sampleFS Tools1.S3_BUCKET Tools1.S3_PREFIX
    [Cell.int 3, Cell.int 1, Cell.int 2]
    ⟨["OFFICIAL_SYMBOL", "SCREEN_ID"],
      [[("OFFICIAL_SYMBOL", Cell.str "G3"), ("SCREEN_ID", Cell.int 3)],
       [("OFFICIAL_SYMBOL", Cell.str "G1"), ("SCREEN_ID", Cell.int 1)],
       [("OFFICIAL_SYMBOL", Cell.str "G2"), ("SCREEN_ID", Cell.int 2)]]⟩
    (by decide)

/-- C7: for a screen present on disk whose index row carries the
significance fields, the single-screen summarization returns the hit
rows (exactly the rows whose HIT column is YES), the top 10 of those
hits ordered by SCORE.1 descending — the returned rows together with the
remaining hits form a permutation of all hits, and every remaining hit
scores no higher than every returned row — and the explanation string
built from the significance fields in the fixed format. -/
theorem claim_C7_summarize (fs : FS) (sid : Cell) (idx : Table)
    (dir : String) (t : Table) (n : Int) (r : Row) (ind crit : Cell)
    (h1 : fs (Tools2.get_screen_path sid dir) = some t)
    (hcast : Tools2.cellAsInt sid = some n)
    (hfind : idx.rows.find? (fun row => rowGetD row "SCREEN_ID" == Cell.int n)
      = some r)
    (hind : rowGet r "SIGNIFICANCE_INDICATOR" = some ind)
    (hcrit : rowGet r "SIGNIFICANCE_CRITERIA" = some crit) :
    ∃ summ c, Tools2.summarize_screen fs sid idx dir = .ok (some summ)
      ∧ (∀ row, row ∈ Tools2.get_hits t
          ↔ row ∈ t.rows ∧ rowGet row "HIT" = some (Cell.str "YES"))
      ∧ summ.num_hits = (Tools2.get_hits t).length
      ∧ summ.top_hits.length = min 10 (Tools2.get_hits t).length
      ∧ (∀ row ∈ summ.top_hits, row ∈ Tools2.get_hits t)
      ∧ summ.top_hits.Pairwise (fun a b => Tools2.score1Desc a b = true)
      ∧ (∃ rest, (summ.top_hits ++ rest).Perm (Tools2.get_hits t)
          ∧ ∀ x ∈ rest, ∀ y ∈ summ.top_hits, Tools2.score1Desc y x = true)
      ∧ summ.criteria = some c ∧ c.indicator = ind ∧ c.criteria = crit
      ∧ Tools2.explain_significance idx sid
        = .ok ("Hits are defined by: " ++ ind.render ++ " with criteria: "
          ++ crit.render ++ ". Score columns: " ++ pyListRepr c.score_types) := by
  have hmeta : Tools2.get_screen_metadata idx sid = .ok (some r) := by
    simp [Tools2.get_screen_metadata, hcast, hfind]
  have hsig : Tools2.get_significance_criteria idx sid
      = .ok (some ⟨ind, crit, Tools2.scoreTypeCols.filterMap (fun c2 =>
          match rowGet r c2 with
          | some v => if v = Cell.null then none else some v
          | none => none)⟩) := by
    simp [Tools2.get_significance_criteria, hcast, hfind, hind, hcrit]
  refine ⟨⟨sid, some r, some ⟨ind, crit,
      Tools2.scoreTypeCols.filterMap (fun c2 =>
        match rowGet r c2 with
        | some v => if v = Cell.null then none else some v
        | none => none)⟩, (Tools2.get_hits t).length,
      Tools2.topHits (Tools2.get_hits t)⟩,
    ⟨ind, crit, Tools2.scoreTypeCols.filterMap (fun c2 =>
      match rowGet r c2 with
      | some v => if v = Cell.null then none else some v
      | none => none)⟩, ?_, ?_, rfl, ?_, ?_, ?_, ?_, rfl, rfl, rfl, ?_⟩
  · simp [Tools2.summarize_screen, h1, hmeta, hsig]
  · intro row
    simp [Tools2.get_hits, List.mem_filter]
  · simp [Tools2.topHits, List.length_take]
  · intro row hrow
    have hmem := (List.take_sublist 10 _).subset hrow
    simpa using List.mem_mergeSort.mp hmem
  · exact List.Pairwise.sublist (List.take_sublist 10 _)
      (List.sorted_mergeSort Tools2.score1Desc_trans
        Tools2.score1Desc_total (Tools2.get_hits t))
  · refine ⟨((Tools2.get_hits t).mergeSort Tools2.score1Desc).drop 10,
      ?_, ?_⟩
    · show ((((Tools2.get_hits t).mergeSort Tools2.score1Desc).take 10)
          ++ (((Tools2.get_hits t).mergeSort Tools2.score1Desc).drop 10)).Perm
        (Tools2.get_hits t)
      rw [List.take_append_drop]
      exact List.mergeSort_perm (Tools2.get_hits t) Tools2.score1Desc
    · intro x hx y hy
      have hp : (((Tools2.get_hits t).mergeSort Tools2.score1Desc).take 10
          ++ ((Tools2.get_hits t).mergeSort Tools2.score1Desc).drop 10).Pairwise
          (fun a b => Tools2.score1Desc a b = true) := by
        rw [List.take_append_drop]
        exact List.sorted_mergeSort Tools2.score1Desc_trans
          Tools2.score1Desc_total (Tools2.get_hits t)
      exact (List.pairwise_append.mp hp).2.2 y hy x hx
  · simp [Tools2.explain_significance, hsig]

/-- C7 (witness): the theorem applied to screen 101 of the sample store
and index: the summary is produced, its single hit is the TP53 row, and
the explanation string is the fully rendered sentence. -/
theorem claim_C7_summarize_witness :
    (∃ summ c,
      Tools2.summarize_screen sampleFS2 (Cell.int 101) sampleIdx2
          Tools2.SCREEN_DIR = .ok (some summ)
        ∧ summ.num_hits = (Tools2.get_hits sampleScreen101).length
        ∧ summ.top_hits.Pairwise (fun a b => Tools2.score1Desc a b = true)
        ∧ summ.criteria = some c
        ∧ Tools2.explain_significance sampleIdx2 (Cell.int 101)
          = .ok ("Hits are defined by: " ++ (Cell.str "SCORE.1").render
            ++ " with criteria: "
            ++ (Cell.str "score greater than 2").render
            ++ ". Score columns: " ++ pyListRepr c.score_types))
    ∧ Tools2.explain_significance sampleIdx2 (Cell.int 101)
      = .ok "Hits are defined by: SCORE.1 with criteria: score greater than 2. Score columns: ['log2 fold change']" := by
  constructor
  · obtain ⟨summ, c, hsum, _, hnum, _, _, hpair, _, hcr, _, _, hexp⟩ :=
      claim_C7_summarize sampleFS2 (Cell.int 101) sampleIdx2
        Tools2.SCREEN_DIR sampleScreen101 101
        [("SCREEN_ID", Cell.int 101),
         ("SIGNIFICANCE_INDICATOR", Cell.str "SCORE.1"),
         ("SIGNIFICANCE_CRITERIA", Cell.str "score greater than 2"),
         ("SCORE.1_TYPE", Cell.str "log2 fold change")]
        (Cell.str "SCORE.1") (Cell.str "score greater than 2")
        (by decide) (by decide) (by decide) (by decide) (by decide)
    exact ⟨summ, c, hsum, hnum, hpair, hcr, hexp⟩
  · decide

/-- C8: the Vocabulary Extractor returns the list of distinct non-null
values of the column ordered by first occurrence (equal to the
specification-side first-occurrence fold when the column is present),
and the empty list when the column is absent; it is a pure function of
the table. -/
theorem claim_C8_vocabulary (idx : Table) (c : String) :
    (c ∉ idx.cols → Tools1.vocab_options idx c = [])
      ∧ (c ∈ idx.cols → Tools1.vocab_options idx c
          = spec_first_occurrence_distinct (idx.colVals c))
      ∧ (Tools1.vocab_options idx c).Nodup
      ∧ (∀ v ∈ Tools1.vocab_options idx c,
          v ≠ Cell.null ∧ v ∈ idx.colVals c)
      ∧ List.Sublist (Tools1.vocab_options idx c)
          ((idx.colVals c).filter (fun v => v ≠ Cell.null))
      ∧ Tools1.list_viruses idx = Tools1.vocab_options idx "CONDITION_NAME" := by
  refine ⟨?_, ?_, ?_, ?_, ?_, rfl⟩
  · intro h
    simp [Tools1.vocab_options, h]
  · intro h
    rw [spec_first_occurrence_eq]
    simp [Tools1.vocab_options, h, dropnaUnique]
  · by_cases h : c ∈ idx.cols
    · simp only [Tools1.vocab_options, dropnaUnique]
      rw [if_pos (by simpa using h)]
      exact nodup_uniqueFirst _
    · simp [Tools1.vocab_options, h]
  · intro v hv
    by_cases h : c ∈ idx.cols
    · simp only [Tools1.vocab_options, dropnaUnique] at hv
      rw [if_pos (by simpa using h)] at hv
      rw [mem_uniqueFirst] at hv
      rw [List.mem_filter] at hv
      exact ⟨by simpa using hv.2, hv.1⟩
    · simp [Tools1.vocab_options, h] at hv
  · by_cases h : c ∈ idx.cols
    · simp only [Tools1.vocab_options, dropnaUnique]
      rw [if_pos (by simpa using h)]
      exact uniqueFirst_sublist _
    · simp [Tools1.vocab_options, h]

/-- C8 (witness): on the worked-example index, the vocabulary of the
CONDITION_NAME column equals the specification-side first-occurrence
fold, and is the two condition names in first-seen order; an absent
column gives the empty list. -/
theorem claim_C8_vocabulary_witness :
    Tools1.vocab_options sampleIdx "CONDITION_NAME"
        = spec_first_occurrence_distinct (sampleIdx.colVals "CONDITION_NAME")
      ∧ Tools1.vocab_options sampleIdx "CONDITION_NAME"
        = [Cell.str "Influenza A", Cell.str "SARS-CoV-2"]
      ∧ Tools1.vocab_options sampleIdx "ABSENT" = [] :=
  ⟨(claim_C8_vocabulary sampleIdx "CONDITION_NAME").2.1 (by decide),
   by decide,
   (claim_C8_vocabulary sampleIdx "ABSENT").1 (by decide)⟩

/-- C10 (witness): the theorem applied to a one-row index that holds only
screen 7, queried for the absent screen 8. -/
theorem claim_C10_absent_screen_witness :
    Tools2.get_screen_metadata
        ⟨["SCREEN_ID"], [[("SCREEN_ID", Cell.int 7)]]⟩ (Cell.int 8) = .ok none
      ∧ Tools2.get_significance_criteria
        ⟨["SCREEN_ID"], [[("SCREEN_ID", Cell.int 7)]]⟩ (Cell.int 8) = .ok none
      ∧ Tools2.explain_significance
        ⟨["SCREEN_ID"], [[("SCREEN_ID", Cell.int 7)]]⟩ (Cell.int 8)
        = .ok "No criteria found." :=
  claim_C10_absent_screen ⟨["SCREEN_ID"], [[("SCREEN_ID", Cell.int 7)]]⟩ 8
    (by decide)

end CrisprScreens
